import Mathlib

/-!
Verification of the catchment-overlap core of the McDonald's outlet map
front-end (`src/components/OutletMap.js`).

The JavaScript numbers are idealised as real numbers; `Math.atan2`,
`Math.sin`, `Math.cos`, `Math.sqrt` become their real counterparts
(`Real.sqrt` of a negative number is `0`, matching the fact that the
haversine intermediate `a` stays in `[0, 1]` on real arithmetic).
-/

open Real

/-- JavaScript `Math.atan2 y x` (principal value in `(-π, π]`),
defined by the usual case split over the sign of `x`. -/
noncomputable def atan2 (y x : ℝ) : ℝ :=
  if 0 < x then arctan (y / x)
  else if x < 0 then
    (if 0 ≤ y then arctan (y / x) + π else arctan (y / x) - π)
  else
    (if 0 < y then π / 2 else if y < 0 then -(π / 2) else 0)

/-- `calculateDistance(lat1, lon1, lat2, lon2)` from `OutletMap.js`
(lines 19–29): haversine distance in kilometres on a sphere of radius
6371 km, finished with `2 * atan2(√a, √(1−a))`. -/
noncomputable def calculateDistance (lat1 lon1 lat2 lon2 : ℝ) : ℝ :=
  let R : ℝ := 6371
  let dLat := (lat2 - lat1) * π / 180
  let dLon := (lon2 - lon1) * π / 180
  let a := Real.sin (dLat / 2) * Real.sin (dLat / 2) +
    Real.cos (lat1 * π / 180) * Real.cos (lat2 * π / 180) *
    Real.sin (dLon / 2) * Real.sin (dLon / 2)
  let c := 2 * atan2 (Real.sqrt a) (Real.sqrt (1 - a))
  R * c

/-- An outlet record as consumed by the analyzer: `id` plus coordinates,
with the descriptive payload fields the popup renders but the analyzer
never reads. -/
structure Outlet where
  id : ℕ
  latitude : ℝ
  longitude : ℝ
  name : String
  address : String
  operating_hours : String
  telephone : String
  waze_link : String

/-- The distance call of the inner loop:
`calculateDistance(a.latitude, a.longitude, b.latitude, b.longitude)`. -/
noncomputable def distOutlet (a b : Outlet) : ℝ :=
  calculateDistance a.latitude a.longitude b.latitude b.longitude

/-- One pass of the inner `j` loop of `findIntersectingOutlets`: pair the
fixed outlet `a` (at index `i`) with each later outlet `b`; when
`distance < radius * 2` both ids enter the set. -/
noncomputable def pairFlags (radiusKm : ℝ) (a : Outlet) : List Outlet → Finset ℕ
  | [] => ∅
  | b :: bs =>
      (if distOutlet a b < radiusKm * 2 then ({a.id, b.id} : Finset ℕ) else ∅) ∪
        pairFlags radiusKm a bs

/-- The spec's contract `computeOverlaps(outlets, radiusKm)`: the double
loop of `findIntersectingOutlets` (lines 32–52 of `OutletMap.js`) with the
hard-coded `catchmentRadius` abstracted into a parameter. -/
noncomputable def computeOverlaps (radiusKm : ℝ) : List Outlet → Finset ℕ
  | [] => ∅
  | a :: rest => pairFlags radiusKm a rest ∪ computeOverlaps radiusKm rest

/-- `findIntersectingOutlets` as in the source: `catchmentRadius = 5`. -/
noncomputable def findIntersectingOutlets (outletList : List Outlet) : Finset ℕ :=
  computeOverlaps 5 outletList

/- ### Basic facts about the distance function -/

lemma calculateDistance_symm (lat1 lon1 lat2 lon2 : ℝ) :
    calculateDistance lat2 lon2 lat1 lon1 = calculateDistance lat1 lon1 lat2 lon2 := by
  simp only [calculateDistance]
  have h1 : (lat1 - lat2) * π / 180 / 2 = -((lat2 - lat1) * π / 180 / 2) := by ring
  have h2 : (lon1 - lon2) * π / 180 / 2 = -((lon2 - lon1) * π / 180 / 2) := by ring
  rw [h1, h2]
  simp only [Real.sin_neg]
  ring_nf

lemma distOutlet_symm (a b : Outlet) : distOutlet a b = distOutlet b a := by
  simp only [distOutlet]
  exact (calculateDistance_symm a.latitude a.longitude b.latitude b.longitude).symm

/-- A point is at haversine distance zero from itself. -/
lemma calculateDistance_self (lat lon : ℝ) : calculateDistance lat lon lat lon = 0 := by
  simp only [calculateDistance, sub_self, zero_mul, zero_div, Real.sin_zero, mul_zero,
    zero_add, add_zero, Real.sqrt_zero, sub_zero, Real.sqrt_one]
  simp [atan2]

/- ### Membership characterization of the pairwise scan -/

lemma mem_pairFlags_iff (r : ℝ) (a : Outlet) (l : List Outlet) (x : ℕ) :
    x ∈ pairFlags r a l ↔
      ∃ b ∈ l, distOutlet a b < r * 2 ∧ (x = a.id ∨ x = b.id) := by
  induction l with
  | nil => simp [pairFlags]
  | cons c t ih =>
    by_cases h : distOutlet a c < r * 2
    · simp only [pairFlags, if_pos h, Finset.mem_union, Finset.mem_insert,
        Finset.mem_singleton, ih, List.mem_cons]
      constructor
      · rintro ((hx | hx) | ⟨b, hb, hd, hx⟩)
        · exact ⟨c, Or.inl rfl, h, Or.inl hx⟩
        · exact ⟨c, Or.inl rfl, h, Or.inr hx⟩
        · exact ⟨b, Or.inr hb, hd, hx⟩
      · rintro ⟨b, hb | hb, hd, hx⟩
        · subst hb
          exact Or.inl (by tauto)
        · exact Or.inr ⟨b, hb, hd, hx⟩
    · simp only [pairFlags, if_neg h, Finset.empty_union, ih, List.mem_cons]
      constructor
      · rintro ⟨b, hb, hd, hx⟩
        exact ⟨b, Or.inr hb, hd, hx⟩
      · rintro ⟨b, hb | hb, hd, hx⟩
        · subst hb; exact absurd hd h
        · exact ⟨b, hb, hd, hx⟩

lemma mem_computeOverlaps_iff (r : ℝ) (l : List Outlet) (x : ℕ) :
    x ∈ computeOverlaps r l ↔
      ∃ a b : Outlet, [a, b].Sublist l ∧ distOutlet a b < r * 2 ∧
        (x = a.id ∨ x = b.id) := by
  induction l with
  | nil => simp [computeOverlaps]
  | cons c t ih =>
    simp only [computeOverlaps, Finset.mem_union, mem_pairFlags_iff, ih]
    constructor
    · rintro (⟨b, hb, hd, hx⟩ | ⟨a, b, hs, hd, hx⟩)
      · exact ⟨c, b, (List.singleton_sublist.mpr hb).cons₂ c, hd, hx⟩
      · exact ⟨a, b, hs.cons c, hd, hx⟩
    · rintro ⟨a, b, hs, hd, hx⟩
      cases hs with
      | cons _ hs => exact Or.inr ⟨a, b, hs, hd, hx⟩
      | cons₂ _ hs => exact Or.inl ⟨b, List.singleton_sublist.mp hs, hd, hx⟩

/-- A two-element sublist is the same thing as a pair of positions in
increasing index order. -/
lemma pair_sublist_iff_get (a b : Outlet) (l : List Outlet) :
    [a, b].Sublist l ↔
      ∃ i j : Fin l.length, (i : ℕ) < (j : ℕ) ∧ l.get i = a ∧ l.get j = b := by
  induction l with
  | nil =>
    simp only [List.sublist_nil, List.length_nil]
    constructor
    · intro h; cases h
    · rintro ⟨i, _, _, _, _⟩; exact absurd i.isLt (by simp)
  | cons c t ih =>
    constructor
    · intro h
      cases h with
      | cons _ h =>
        obtain ⟨i, j, hij, ha, hb⟩ := ih.mp h
        refine ⟨i.succ, j.succ, by simpa using hij, ?_, ?_⟩
        · simpa using ha
        · simpa using hb
      | cons₂ _ h =>
        obtain ⟨⟨k, hk⟩, hkb⟩ := List.mem_iff_get.mp (List.singleton_sublist.mp h)
        refine ⟨⟨0, by simp⟩, ⟨k + 1, by simpa using hk⟩, by simp, rfl, ?_⟩
        simpa using hkb
    · rintro ⟨⟨iv, hi⟩, ⟨jv, hj⟩, hij, ha, hb⟩
      cases iv with
      | zero =>
        cases jv with
        | zero => exact absurd hij (by simp)
        | succ jv =>
          have hb' : t.get ⟨jv, Nat.lt_of_succ_lt_succ hj⟩ = b := hb
          have hbmem : b ∈ t := List.mem_iff_get.mpr ⟨_, hb'⟩
          have hac : c = a := ha
          rw [← hac]
          exact (List.singleton_sublist.mpr hbmem).cons₂ c
      | succ iv =>
        cases jv with
        | zero => exact absurd hij (by simp)
        | succ jv =>
          have ha' : t.get ⟨iv, Nat.lt_of_succ_lt_succ hi⟩ = a := ha
          have hb' : t.get ⟨jv, Nat.lt_of_succ_lt_succ hj⟩ = b := hb
          have : [a, b].Sublist t :=
            ih.mpr ⟨_, _, Nat.lt_of_succ_lt_succ hij, ha', hb'⟩
          exact this.cons c

/-- Index form of the membership characterization: an id is flagged iff
some outlet bearing it sits at a position distinct from that of another
outlet at distance `< radius * 2`. -/
lemma mem_computeOverlaps_index_iff (r : ℝ) (l : List Outlet) (x : ℕ) :
    x ∈ computeOverlaps r l ↔
      ∃ i j : Fin l.length, i ≠ j ∧
        distOutlet (l.get i) (l.get j) < r * 2 ∧ x = (l.get i).id := by
  rw [mem_computeOverlaps_iff]
  constructor
  · rintro ⟨a, b, hs, hd, hx | hx⟩ <;>
      obtain ⟨i, j, hij, ha, hb⟩ := (pair_sublist_iff_get a b l).mp hs
    · refine ⟨i, j, ?_, ?_, ?_⟩
      · intro hcon; rw [hcon] at hij; exact lt_irrefl _ hij
      · rw [ha, hb]; exact hd
      · rw [ha, hx]
    · refine ⟨j, i, ?_, ?_, ?_⟩
      · intro hcon; rw [hcon] at hij; exact lt_irrefl _ hij
      · rw [ha, hb, distOutlet_symm]; exact hd
      · rw [hb, hx]
  · rintro ⟨i, j, hne, hd, hx⟩
    have hvne : (i : ℕ) ≠ (j : ℕ) := fun h => hne (Fin.ext h)
    rcases hvne.lt_or_lt with hlt | hlt
    · exact ⟨l.get i, l.get j,
        (pair_sublist_iff_get _ _ l).mpr ⟨i, j, hlt, rfl, rfl⟩, hd, Or.inl hx⟩
    · exact ⟨l.get j, l.get i,
        (pair_sublist_iff_get _ _ l).mpr ⟨j, i, hlt, rfl, rfl⟩,
        by rwa [distOutlet_symm], Or.inr hx⟩

/-- When a pair of positions qualifies, both of its ids are flagged. -/
lemma pair_ids_mem_computeOverlaps (r : ℝ) (l : List Outlet)
    (i j : Fin l.length) (hne : i ≠ j)
    (hd : distOutlet (l.get i) (l.get j) < r * 2) :
    (l.get i).id ∈ computeOverlaps r l ∧ (l.get j).id ∈ computeOverlaps r l := by
  constructor
  · exact (mem_computeOverlaps_index_iff r l _).mpr ⟨i, j, hne, hd, rfl⟩
  · exact (mem_computeOverlaps_index_iff r l _).mpr
      ⟨j, i, hne.symm, by rwa [distOutlet_symm], rfl⟩

/- ### Concrete distance values used by the witnesses -/

lemma atan2_one_zero : atan2 1 0 = π / 2 := by
  norm_num [atan2]

/-- Two points on the equator 180° of longitude apart lie at haversine
distance `6371 * π` (half the sphere's circumference). -/
lemma calculateDistance_antipodal : calculateDistance 0 0 0 180 = 6371 * π := by
  simp only [calculateDistance]
  have h1 : ((180 : ℝ) - 0) * π / 180 / 2 = π / 2 := by ring
  have h2 : ((0 : ℝ) - 0) * π / 180 / 2 = 0 := by ring
  have h3 : (0 : ℝ) * π / 180 = 0 := by ring
  rw [h1, h2, h3, Real.sin_zero, Real.sin_pi_div_two, Real.cos_zero]
  norm_num [atan2_one_zero]
  ring

/- Sample outlets for the concrete witnesses. -/

def oA : Outlet := ⟨1, 0, 0, "", "", "", "", ""⟩
def oB : Outlet := ⟨2, 0, 180, "", "", "", "", ""⟩
def oC : Outlet := ⟨3, 0, 0, "", "", "", "", ""⟩
def oD : Outlet := ⟨1, 0, 0, "mcd", "jalan", "9am", "03", "waze"⟩

lemma distOutlet_oA_oB : distOutlet oA oB = 6371 * π :=
  calculateDistance_antipodal

lemma distOutlet_oA_oC : distOutlet oA oC = 0 :=
  calculateDistance_self 0 0

/- ### Claim theorems -/

/-- C1: an id belongs to the computed overlap set iff some outlet bearing
it has another outlet of the input list, at a different position, at
haversine distance strictly below twice the catchment radius; two outlets
exactly `2 * radiusKm` apart are not flagged, while two outlets at
distance `2 * radiusKm - ε` (any `ε > 0`) are both flagged. -/
theorem overlap_membership_iff_and_boundary :
    (∀ (r : ℝ) (l : List Outlet) (x : ℕ),
        x ∈ computeOverlaps r l ↔
          ∃ i j : Fin l.length, i ≠ j ∧
            distOutlet (l.get i) (l.get j) < r * 2 ∧ x = (l.get i).id) ∧
    (∀ (a b : Outlet) (r : ℝ), distOutlet a b = r * 2 →
        computeOverlaps r [a, b] = ∅) ∧
    (∀ (a b : Outlet) (r ε : ℝ), 0 < ε → distOutlet a b = r * 2 - ε →
        computeOverlaps r [a, b] = {a.id, b.id}) := by
  refine ⟨mem_computeOverlaps_index_iff, ?_, ?_⟩
  · intro a b r h
    simp [computeOverlaps, pairFlags, h]
  · intro a b r ε hε h
    have hlt : distOutlet a b < r * 2 := by rw [h]; linarith
    simp [computeOverlaps, pairFlags, hlt]

/-- Witness for C1 at concrete outlets: `oA`/`oB` are exactly
`2 * (6371π/2)` km apart and not flagged; `oA`/`oC` coincide, hence lie at
`5 * 2 - 10` km, and both are flagged. -/
theorem overlap_membership_iff_and_boundary_witness :
    (distOutlet oA oB = (6371 * π / 2) * 2 ∧
      computeOverlaps (6371 * π / 2) [oA, oB] = ∅) ∧
    ((0 : ℝ) < 10 ∧ distOutlet oA oC = 5 * 2 - 10 ∧
      computeOverlaps 5 [oA, oC] = {oA.id, oC.id}) := by
  have hEq : distOutlet oA oB = (6371 * π / 2) * 2 := by
    rw [distOutlet_oA_oB]; ring
  have hEq2 : distOutlet oA oC = 5 * 2 - 10 := by
    rw [distOutlet_oA_oC]; norm_num
  exact ⟨⟨hEq, overlap_membership_iff_and_boundary.2.1 oA oB _ hEq⟩,
    ⟨by norm_num, hEq2,
      overlap_membership_iff_and_boundary.2.2 oA oC 5 10 (by norm_num) hEq2⟩⟩

/-- The distance as the spec words it: `h = sin²(Δlat/2) +
cos(lat_a)·cos(lat_b)·sin²(Δlon/2)` on a sphere of radius 6371 km,
finished as `2·R·atan2(√h, √(1−h))`. -/
noncomputable def haversineSpec (latA lonA latB lonB : ℝ) : ℝ :=
  let R : ℝ := 6371
  let dLat := (latB - latA) * π / 180
  let dLon := (lonB - lonA) * π / 180
  let h := Real.sin (dLat / 2) ^ 2 +
    Real.cos (latA * π / 180) * Real.cos (latB * π / 180) * Real.sin (dLon / 2) ^ 2
  2 * R * atan2 (Real.sqrt h) (Real.sqrt (1 - h))

/-- C2: the distance the overlap analysis uses is exactly the haversine
great-circle distance of the spec, in its `atan2` form. -/
theorem calculateDistance_eq_haversineSpec (lat1 lon1 lat2 lon2 : ℝ) :
    calculateDistance lat1 lon1 lat2 lon2 = haversineSpec lat1 lon1 lat2 lon2 := by
  simp only [calculateDistance, haversineSpec]
  have hq : Real.sin ((lat2 - lat1) * π / 180 / 2) * Real.sin ((lat2 - lat1) * π / 180 / 2) +
      Real.cos (lat1 * π / 180) * Real.cos (lat2 * π / 180) *
      Real.sin ((lon2 - lon1) * π / 180 / 2) * Real.sin ((lon2 - lon1) * π / 180 / 2) =
      Real.sin ((lat2 - lat1) * π / 180 / 2) ^ 2 +
      Real.cos (lat1 * π / 180) * Real.cos (lat2 * π / 180) *
      Real.sin ((lon2 - lon1) * π / 180 / 2) ^ 2 := by ring
  rw [hq]; ring

/-- C4: with zero or one outlets there are no index pairs, so the overlap
set is empty; the function returns normally. -/
theorem computeOverlaps_degenerate (r : ℝ) (l : List Outlet)
    (h : l.length ≤ 1) : computeOverlaps r l = ∅ := by
  match l with
  | [] => simp [computeOverlaps]
  | [o] => simp [computeOverlaps, pairFlags]
  | a :: b :: t => simp [List.length_cons] at h

/-- Witness for C4 at the empty list. -/
theorem computeOverlaps_degenerate_witness :
    ([] : List Outlet).length ≤ 1 ∧ computeOverlaps 5 [] = ∅ :=
  ⟨by simp, computeOverlaps_degenerate 5 [] (by simp)⟩

/- ### Order independence -/

lemma pairFlags_perm (r : ℝ) (a : Outlet) {l1 l2 : List Outlet}
    (h : l1.Perm l2) : pairFlags r a l1 = pairFlags r a l2 := by
  induction h with
  | nil => rfl
  | cons x _ ih => simp only [pairFlags, ih]
  | swap x y t => simp only [pairFlags]; exact Finset.union_left_comm _ _ _
  | trans _ _ ih1 ih2 => rw [ih1, ih2]

lemma flagPair_symm (r : ℝ) (x y : Outlet) :
    (if distOutlet x y < r * 2 then ({x.id, y.id} : Finset ℕ) else ∅) =
    (if distOutlet y x < r * 2 then ({y.id, x.id} : Finset ℕ) else ∅) := by
  rw [distOutlet_symm, Finset.pair_comm]

/-- C5: the overlap set is invariant under permutation of the input
list. -/
theorem computeOverlaps_perm (r : ℝ) (l1 l2 : List Outlet)
    (h : l1.Perm l2) : computeOverlaps r l1 = computeOverlaps r l2 := by
  induction h with
  | nil => rfl
  | cons x h ih => simp only [computeOverlaps, ih, pairFlags_perm r x h]
  | swap x y t =>
    simp only [computeOverlaps, pairFlags]
    rw [flagPair_symm r y x, Finset.union_assoc, Finset.union_assoc,
      Finset.union_left_comm (pairFlags r y t)]
  | trans _ _ ih1 ih2 => rw [ih1, ih2]

/-- Witness for C5: swapping a concrete two-outlet list. -/
theorem computeOverlaps_perm_witness :
    ([oA, oC].Perm [oC, oA]) ∧
      computeOverlaps 5 [oA, oC] = computeOverlaps 5 [oC, oA] :=
  ⟨List.Perm.swap oC oA [], computeOverlaps_perm 5 _ _ (List.Perm.swap oC oA [])⟩

/- ### Monotonicity in the radius -/

lemma pairFlags_mono (a : Outlet) (t : List Outlet) {r1 r2 : ℝ}
    (h : r1 ≤ r2) : pairFlags r1 a t ⊆ pairFlags r2 a t := by
  induction t with
  | nil => simp [pairFlags]
  | cons b bs ih =>
    simp only [pairFlags]
    refine Finset.union_subset_union ?_ ih
    split_ifs with h1 h2
    · exact subset_rfl
    · exact absurd (lt_of_lt_of_le h1 (by linarith)) h2
    · exact Finset.empty_subset _
    · exact Finset.empty_subset _

/-- C6: enlarging the catchment radius never removes an id from the
overlap set. -/
theorem computeOverlaps_mono (l : List Outlet) (r1 r2 : ℝ)
    (_h0 : 0 < r1) (h : r1 ≤ r2) :
    computeOverlaps r1 l ⊆ computeOverlaps r2 l := by
  induction l with
  | nil => simp [computeOverlaps]
  | cons a t ih =>
    simp only [computeOverlaps]
    exact Finset.union_subset_union (pairFlags_mono a t h) ih

/-- Witness for C6 at radii 1 ≤ 2 on a concrete list. -/
theorem computeOverlaps_mono_witness :
    (0 : ℝ) < 1 ∧ (1 : ℝ) ≤ 2 ∧
      computeOverlaps 1 [oA, oC] ⊆ computeOverlaps 2 [oA, oC] :=
  ⟨by norm_num, by norm_num,
    computeOverlaps_mono [oA, oC] 1 2 (by norm_num) (by norm_num)⟩

/- ### Symmetry of flagging -/

/-- C7: when two outlets at distinct positions are within twice the
radius of each other, each one's id is flagged iff the other's is — and
in fact both are flagged. -/
theorem overlap_flag_symmetric (r : ℝ) (l : List Outlet)
    (i j : Fin l.length) (hne : i ≠ j)
    (hd : distOutlet (l.get i) (l.get j) < r * 2) :
    ((l.get i).id ∈ computeOverlaps r l ↔ (l.get j).id ∈ computeOverlaps r l) ∧
      (l.get i).id ∈ computeOverlaps r l ∧ (l.get j).id ∈ computeOverlaps r l := by
  obtain ⟨h1, h2⟩ := pair_ids_mem_computeOverlaps r l i j hne hd
  exact ⟨⟨fun _ => h2, fun _ => h1⟩, h1, h2⟩

/-- Witness for C7 on the coincident pair `oA`, `oC`. -/
theorem overlap_flag_symmetric_witness :
    ((0 : Fin 2) ≠ (1 : Fin 2)) ∧ distOutlet oA oC < 5 * 2 ∧
    ((oA.id ∈ computeOverlaps 5 [oA, oC] ↔ oC.id ∈ computeOverlaps 5 [oA, oC]) ∧
      oA.id ∈ computeOverlaps 5 [oA, oC] ∧ oC.id ∈ computeOverlaps 5 [oA, oC]) := by
  have hd : distOutlet oA oC < 5 * 2 := by rw [distOutlet_oA_oC]; norm_num
  exact ⟨by decide, hd,
    overlap_flag_symmetric 5 [oA, oC] (0 : Fin 2) (1 : Fin 2) (by decide) hd⟩

/- ### The analyzer reads only id and coordinates -/

/-- The only outlet fields `findIntersectingOutlets` ever reads. -/
def proj (o : Outlet) : ℕ × ℝ × ℝ := (o.id, o.latitude, o.longitude)

lemma pairFlags_proj_congr (r : ℝ) {a1 a2 : Outlet} {t1 t2 : List Outlet}
    (ha : proj a1 = proj a2) (ht : t1.map proj = t2.map proj) :
    pairFlags r a1 t1 = pairFlags r a2 t2 := by
  obtain ⟨hida, hlata, hlona⟩ :
      a1.id = a2.id ∧ a1.latitude = a2.latitude ∧ a1.longitude = a2.longitude := by
    simpa [proj, Prod.ext_iff] using ha
  induction t1 generalizing t2 with
  | nil =>
    cases t2 with
    | nil => rfl
    | cons _ _ => simp at ht
  | cons b1 bs1 ih =>
    cases t2 with
    | nil => simp at ht
    | cons b2 bs2 =>
      simp only [List.map_cons, List.cons.injEq] at ht
      obtain ⟨hidb, hlatb, hlonb⟩ :
          b1.id = b2.id ∧ b1.latitude = b2.latitude ∧ b1.longitude = b2.longitude := by
        simpa [proj, Prod.ext_iff] using ht.1
      simp only [pairFlags, distOutlet, hida, hlata, hlona, hidb, hlatb, hlonb,
        ih ht.2]

/-- C8: the overlap set depends only on each outlet's id, latitude and
longitude; the descriptive payload fields are never inspected. -/
theorem computeOverlaps_depends_only_on_proj (r : ℝ) (l1 l2 : List Outlet)
    (h : l1.map proj = l2.map proj) :
    computeOverlaps r l1 = computeOverlaps r l2 := by
  induction l1 generalizing l2 with
  | nil =>
    cases l2 with
    | nil => rfl
    | cons _ _ => simp at h
  | cons a t ih =>
    cases l2 with
    | nil => simp at h
    | cons a2 t2 =>
      simp only [List.map_cons, List.cons.injEq] at h
      simp only [computeOverlaps, pairFlags_proj_congr r h.1 h.2, ih t2 h.2]

/-- Witness for C8: `oA` and `oD` share id and coordinates but differ in
every descriptive field. -/
theorem computeOverlaps_depends_only_on_proj_witness :
    ([oA].map proj = [oD].map proj) ∧
      computeOverlaps 5 [oA] = computeOverlaps 5 [oD] :=
  ⟨rfl, computeOverlaps_depends_only_on_proj 5 [oA] [oD] rfl⟩

/- ### Flagged ids come from the input -/

lemma mem_computeOverlaps_exists_source (r : ℝ) (l : List Outlet) (x : ℕ)
    (h : x ∈ computeOverlaps r l) : ∃ o ∈ l, o.id = x := by
  obtain ⟨a, b, hs, hd, hx | hx⟩ := (mem_computeOverlaps_iff r l x).mp h
  · exact ⟨a, hs.subset (by simp), hx.symm⟩
  · exact ⟨b, hs.subset (by simp), hx.symm⟩

/-- C9: every id in the overlap set is the id of some outlet of the
input list. -/
theorem computeOverlaps_ids_from_input (r : ℝ) (l : List Outlet) (x : ℕ)
    (h : x ∈ computeOverlaps r l) : ∃ o ∈ l, o.id = x :=
  mem_computeOverlaps_exists_source r l x h

/-- The overlap set of the coincident concrete pair. -/
lemma computeOverlaps_oA_oC : computeOverlaps 5 [oA, oC] = {1, 3} := by
  have hd : distOutlet oA oC < 5 * 2 := by rw [distOutlet_oA_oC]; norm_num
  simp only [computeOverlaps, pairFlags, if_pos hd, Finset.union_empty,
    Finset.empty_union]
  simp [oA, oC]

/-- Witness for C9: id 1 is flagged for `[oA, oC]` and indeed names an
input outlet. -/
theorem computeOverlaps_ids_from_input_witness :
    (1 : ℕ) ∈ computeOverlaps 5 [oA, oC] ∧ ∃ o ∈ [oA, oC], o.id = 1 := by
  have hm : (1 : ℕ) ∈ computeOverlaps 5 [oA, oC] := by
    rw [computeOverlaps_oA_oC]; simp
  exact ⟨hm, computeOverlaps_ids_from_input 5 [oA, oC] 1 hm⟩

/- ### Ids are only ever added in pairs -/

/-- C10: with pairwise-distinct ids the overlap set is never a
singleton: it is empty or has at least two elements. -/
theorem computeOverlaps_no_singleton (r : ℝ) (l : List Outlet)
    (h : (l.map Outlet.id).Nodup) :
    computeOverlaps r l = ∅ ∨ 2 ≤ (computeOverlaps r l).card := by
  rcases eq_or_ne (computeOverlaps r l) ∅ with he | he
  · exact Or.inl he
  · right
    obtain ⟨x, hx⟩ := Finset.nonempty_iff_ne_empty.mpr he
    obtain ⟨i, j, hne, hd, _⟩ := (mem_computeOverlaps_index_iff r l x).mp hx
    obtain ⟨h1, h2⟩ := pair_ids_mem_computeOverlaps r l i j hne hd
    have hlen : (l.map Outlet.id).length = l.length := l.length_map _
    have hije : (l.get i).id ≠ (l.get j).id := by
      intro hcon
      apply hne
      have hi : (i : ℕ) < (l.map Outlet.id).length := by
        rw [hlen]; exact i.isLt
      have hj : (j : ℕ) < (l.map Outlet.id).length := by
        rw [hlen]; exact j.isLt
      have hgi : (l.map Outlet.id).get ⟨i, hi⟩ = (l.get i).id := by
        simp [List.getElem_map]
      have hgj : (l.map Outlet.id).get ⟨j, hj⟩ = (l.get j).id := by
        simp [List.getElem_map]
      have hfe : (⟨(i : ℕ), hi⟩ : Fin (l.map Outlet.id).length) = ⟨(j : ℕ), hj⟩ :=
        h.get_inj_iff.mp (by rw [hgi, hgj, hcon])
      have hv := congrArg Fin.val hfe
      exact Fin.ext hv
    calc (2 : ℕ) = ({(l.get i).id, (l.get j).id} : Finset ℕ).card :=
          (Finset.card_pair hije).symm
      _ ≤ (computeOverlaps r l).card :=
          Finset.card_le_card
            (Finset.insert_subset_iff.mpr ⟨h1, Finset.singleton_subset_iff.mpr h2⟩)

/-- Witness for C10 at the empty list, whose mapped ids are trivially
distinct. -/
theorem computeOverlaps_no_singleton_witness :
    (([] : List Outlet).map Outlet.id).Nodup ∧
      (computeOverlaps 5 [] = ∅ ∨ 2 ≤ (computeOverlaps 5 ([] : List Outlet)).card) :=
  ⟨by simp, computeOverlaps_no_singleton 5 [] (by simp)⟩

/- ### The validity filter of the `useEffect` (lines 54–75) -/

/-- A JavaScript value sitting in an outlet's coordinate field: absent
(`null`/`undefined`), `NaN`, a finite double (idealised as a real), or an
infinity. -/
inductive JSNum where
  | missing : JSNum
  | nan : JSNum
  | finite : ℝ → JSNum
  | posInf : JSNum
  | negInf : JSNum

/-- JavaScript truthiness of the value, as tested by
`outlet.latitude && outlet.longitude`: absent values, `NaN` and `0` are
falsy; every other number (infinities included) is truthy. -/
noncomputable def JSNum.truthy : JSNum → Bool
  | .missing => false
  | .nan => false
  | .finite x => if x = 0 then false else true
  | .posInf => true
  | .negInf => true

/-- The global `isNaN` test of the filter. An absent field is treated as
`undefined` (`isNaN(undefined)` is `true`); the choice is irrelevant to
the filter, whose truthiness conjunct already rejects absent values. -/
def JSNum.isNaNb : JSNum → Bool
  | .nan => true
  | .missing => true
  | _ => false

/-- An outlet as delivered by the backend, before validation. -/
structure OutletJS where
  id : ℕ
  latitude : JSNum
  longitude : JSNum
  name : String
  address : String
  operating_hours : String
  telephone : String
  waze_link : String

/-- The filter predicate of the `useEffect`:
`outlet.latitude && outlet.longitude && !isNaN(outlet.latitude) && !isNaN(outlet.longitude)`. -/
noncomputable def jsValid (o : OutletJS) : Bool :=
  o.latitude.truthy && o.longitude.truthy &&
    !o.latitude.isNaNb && !o.longitude.isNaNb

/-- `validOutlets` of the `useEffect`. -/
noncomputable def validOutlets (l : List OutletJS) : List OutletJS :=
  l.filter jsValid

/-- Numeric reading of a coordinate that passed the filter; only ever
meaningful on `finite` values. -/
def JSNum.toReal : JSNum → ℝ
  | .finite x => x
  | _ => 0

def toOutlet (o : OutletJS) : Outlet :=
  ⟨o.id, o.latitude.toReal, o.longitude.toReal, o.name, o.address,
    o.operating_hours, o.telephone, o.waze_link⟩

/-- The analysis pipeline of the `useEffect`: filter, then
`findIntersectingOutlets` with the hard-coded 5 km radius. -/
noncomputable def analyzeOutlets (l : List OutletJS) : Finset ℕ :=
  findIntersectingOutlets ((validOutlets l).map toOutlet)

/- Concrete records for the C3 statements: `oJ1`/`oJ2` sit on the
equator (latitude 0, a perfectly valid coordinate) at the same point;
`oJ3` is an ordinary valid outlet. -/

def oJ1 : OutletJS := ⟨1, .finite 0, .finite 101, "", "", "", "", ""⟩
def oJ2 : OutletJS := ⟨2, .finite 0, .finite 101, "", "", "", "", ""⟩
def oJ3 : OutletJS := ⟨3, .finite 3, .finite 101, "", "", "", "", ""⟩

lemma jsValid_oJ1 : jsValid oJ1 = false := by
  simp [jsValid, oJ1, JSNum.truthy]

lemma jsValid_oJ2 : jsValid oJ2 = false := by
  simp [jsValid, oJ2, JSNum.truthy]

/-- C3 counterexample: two outlets at the identical, in-range coordinate
(0, 101) — finite latitude 0 — are both dropped by the truthiness filter,
so neither is retained nor flagged, though the claim requires them to be
retained (and, lying 0 km apart, flagged). -/
theorem latitude_zero_excluded_counterexample :
    validOutlets [oJ1, oJ2] = [] ∧ analyzeOutlets [oJ1, oJ2] = ∅ ∧
      distOutlet (toOutlet oJ1) (toOutlet oJ2) = 0 ∧
      (-90 : ℝ) ≤ 0 ∧ (0 : ℝ) ≤ 90 ∧ (-180 : ℝ) ≤ 101 ∧ (101 : ℝ) ≤ 180 := by
  have hv : validOutlets [oJ1, oJ2] = [] := by
    simp [validOutlets, List.filter_cons, jsValid_oJ1, jsValid_oJ2]
  refine ⟨hv, ?_, ?_, by norm_num, by norm_num, by norm_num, by norm_num⟩
  · simp [analyzeOutlets, findIntersectingOutlets, hv, computeOverlaps]
  · exact calculateDistance_self 0 101

/-- C3 (amended): the filter retains an outlet exactly when both
coordinates are truthy and not `NaN` — for finite coordinates, exactly
when both are nonzero (so latitude 0 or longitude 0 is excluded, while
out-of-range finite values are retained); absent or `NaN` coordinates are
always excluded; an excluded outlet never affects the analysis of the
others, and its id (when not shared with a retained outlet) never appears
in the flagged set. -/
theorem validity_filter_characterization :
    (∀ (o : OutletJS) (la lo : ℝ), o.latitude = JSNum.finite la →
        o.longitude = JSNum.finite lo →
        (jsValid o = true ↔ la ≠ 0 ∧ lo ≠ 0)) ∧
    (∀ o : OutletJS,
        (o.latitude = JSNum.missing ∨ o.latitude = JSNum.nan ∨
          o.longitude = JSNum.missing ∨ o.longitude = JSNum.nan) →
        jsValid o = false) ∧
    (∀ (l : List OutletJS) (o : OutletJS),
        o ∈ validOutlets l ↔ o ∈ l ∧ jsValid o = true) ∧
    (∀ (l1 l2 : List OutletJS) (o : OutletJS), jsValid o = false →
        analyzeOutlets (l1 ++ o :: l2) = analyzeOutlets (l1 ++ l2)) ∧
    (∀ (l : List OutletJS) (o : OutletJS), jsValid o = false →
        (∀ v ∈ validOutlets l, v.id ≠ o.id) → o.id ∉ analyzeOutlets l) := by
  refine ⟨?_, ?_, ?_, ?_, ?_⟩
  · intro o la lo hla hlo
    simp only [jsValid, hla, hlo, JSNum.truthy, JSNum.isNaNb, Bool.not_false,
      Bool.and_true, Bool.and_eq_true]
    constructor
    · rintro ⟨h1, h2⟩
      constructor
      · intro hc; rw [hc] at h1; simp at h1
      · intro hc; rw [hc] at h2; simp at h2
    · rintro ⟨h1, h2⟩
      rw [if_neg h1, if_neg h2]; exact ⟨rfl, rfl⟩
  · intro o h
    rcases h with h | h | h | h <;>
      simp [jsValid, h, JSNum.truthy, JSNum.isNaNb]
  · intro l o
    simp [validOutlets, List.mem_filter]
  · intro l1 l2 o h
    simp [analyzeOutlets, validOutlets, List.filter_append, List.filter_cons, h]
  · intro l o h hids hmem
    simp only [analyzeOutlets, findIntersectingOutlets] at hmem
    obtain ⟨w, hw, hwid⟩ := mem_computeOverlaps_exists_source 5 _ _ hmem
    obtain ⟨v, hv, rfl⟩ := List.mem_map.mp hw
    exact hids v hv hwid

/-- Witness for the amended C3: inserting the invalid `oJ1` (latitude 0)
in front of the valid `oJ3` leaves the analysis untouched. -/
theorem validity_filter_characterization_witness :
    jsValid oJ1 = false ∧
      analyzeOutlets [oJ1, oJ3] = analyzeOutlets [oJ3] :=
  ⟨jsValid_oJ1,
    validity_filter_characterization.2.2.2.1 [] [oJ3] oJ1 jsValid_oJ1⟩
